import Mathlib

/-!
# Verification of the CMIP catalog builder (`builders/cmip.py`)

Shallow embedding of the path-to-attributes inference engine of
`builders/cmip.py`: the two convention parsers (`parseCmip6`,
`parseCmip5`), the version-deduplication step (`_pick_latest_version`),
the controlled-vocabulary filter of `build_cmip`, and the CLI
configuration checks.

Strings are embedded as Lean `String`s manipulated through character
lists; the Python helpers used by the source (`os.path.basename`,
`os.path.dirname`, `str.split`, `str.strip`, regex search) are embedded
as structurally recursive functions below.  The collaborators that live
in `core.py` — which is not part of the given sources — are modelled
from the specification (see the doc comments on
`reverse_filename_format` and `findFirstLiteral`).
-/

set_option maxRecDepth 40000

namespace Cmip

/-! ## Python string primitives -/

/-- Whether `p` is a literal prefix of `l`. -/
def isPrefixOfChars : List Char → List Char → Bool
  | [], _ => true
  | _ :: _, [] => false
  | a :: as, b :: bs => a = b && isPrefixOfChars as bs

/-- Auxiliary for `pySplit`: fuel-indexed splitting of a character list on a
non-empty separator, left to right, non-overlapping — the semantics of
Python `str.split(sep)`. -/
def splitSubAux (sep : List Char) : Nat → List Char → List Char → List (List Char)
  | 0, acc, rest => [acc.reverse ++ rest]
  | _ + 1, acc, [] => [acc.reverse]
  | n + 1, acc, c :: cs =>
    if isPrefixOfChars sep (c :: cs) then
      acc.reverse :: splitSubAux sep n [] ((c :: cs).drop sep.length)
    else
      splitSubAux sep n (c :: acc) cs

/-- Python `s.split(sep)` for a non-empty separator (the source never splits
on an empty separator; Python raises `ValueError` there, embedded as the
trivial split). -/
def pySplit (s sep : String) : List String :=
  if sep.toList = [] then [s]
  else (splitSubAux sep.toList (s.toList.length + 1) [] s.toList).map String.mk

/-- Strip all leading and trailing characters of `cs` from `s` —
Python `s.strip(cs)`. -/
def pyStrip (s cs : String) : String :=
  let l := s.toList.dropWhile (cs.toList.contains ·)
  String.mk (l.reverse.dropWhile (cs.toList.contains ·)).reverse

/-- Python `s.startswith(p)`. -/
def pyStartsWith (s p : String) : Bool :=
  isPrefixOfChars p.toList s.toList

/-- Python `s.endswith(p)`. -/
def pyEndsWith (s p : String) : Bool :=
  isPrefixOfChars p.toList.reverse s.toList.reverse

/-- Python `s[1:]`: drop the first character. -/
def pyDrop1 (s : String) : String := String.mk (s.toList.drop 1)

/-- Drop a literal suffix (used to remove the `.nc` extension after
`pyEndsWith` has established it is present). -/
def pyDropSuffix (s suf : String) : String :=
  String.mk (s.toList.take (s.toList.length - suf.toList.length))

/-- Python negative indexing `l[-k]` (`k ≥ 1`): `none` models the
`IndexError` raised when the list is shorter than `k`. -/
def pyNegIdx {α : Type} (l : List α) (k : Nat) : Option α :=
  if 1 ≤ k ∧ k ≤ l.length then l.get? (l.length - k) else none

/-- Python `os.path.basename` for POSIX paths: the part after the last `/`. -/
def osBasename (p : String) : String :=
  (pySplit p "/").getLastD ""

/-- Python `os.path.dirname` for POSIX paths: the prefix up to (and including) the
last `/`; if that prefix is not entirely made of slashes, trailing slashes
are stripped. -/
def osDirname (p : String) : String :=
  let l := p.toList
  let head := (l.reverse.dropWhile (· ≠ '/')).reverse
  if head ≠ [] ∧ head.any (· ≠ '/') then
    String.mk (head.reverse.dropWhile (· = '/')).reverse
  else
    String.mk head

/-! ## Regex searches

The source passes small concrete regexes to `core.extract_attr_with_regex`.
`core.py` is not among the given sources; per the specification the
extractor "performs a single pattern search over the [input] string" and
"returns the first match, with leading/trailing characters in
`strip_chars` removed", never raising.  The two regex shapes that occur —
the version token `v\d{4}\d{2}\d{2}|v\d{1}` and alternations of fixed
literals — are embedded as the dedicated scanners below, with Python
`re.search` semantics: leftmost match, alternatives tried in order. -/

/-- A decimal digit. -/
def isDigit (c : Char) : Bool := 48 ≤ c.toNat && c.toNat ≤ 57

/-- Try the version regex `v\d{4}\d{2}\d{2}|v\d{1}` at the head of `l`:
first the 8-digit date-coded alternative, then the single-digit one. -/
def versionAt (l : List Char) : Option (List Char) :=
  match l with
  | [] => none
  | c :: rest =>
    if c = 'v' then
      let d8 := rest.take 8
      if d8.length = 8 && d8.all isDigit then some ('v' :: d8)
      else
        match rest with
        | d :: _ => if isDigit d then some ['v', d] else none
        | [] => none
    else none

/-- Leftmost match of the version regex in a character list. -/
def searchVersionAux : List Char → Option (List Char)
  | [] => none
  | c :: cs =>
    match versionAt (c :: cs) with
    | some m => some m
    | none => searchVersionAux cs

/-- Modelled from the spec: `extract_attr_with_regex(s, regex=version_regex)`
(`core.py` is not among the given sources) — a single search over `s`
returning the first match of `v\d{4}\d{2}\d{2}|v\d{1}`, or `none`. -/
def searchVersion (s : String) : Option String :=
  (searchVersionAux s.toList).map String.mk

/-- Leftmost match among a list of literal alternatives, alternatives tried
in order at each position — `re.search` on `lit1|lit2|...`. -/
def findFirstLiteralAux (lits : List (List Char)) : List Char → Option (List Char)
  | [] => none
  | c :: cs =>
    match lits.find? (fun lit => isPrefixOfChars lit (c :: cs)) with
    | some lit => some lit
    | none => findFirstLiteralAux lits cs

/-- Modelled from the spec: `extract_attr_with_regex(s, regex, strip_chars)`
for a regex that is an alternation of fixed literals (`core.py` is not
among the given sources) — first match, then `strip_chars` stripped,
`none` as the missing marker when nothing matches. -/
def findFirstLiteral (lits : List String) (s : String) (stripChars : Option String) :
    Option String :=
  (findFirstLiteralAux (lits.map String.toList) s.toList).map fun m =>
    match stripChars with
    | some cs => pyStrip (String.mk m) cs
    | none => String.mk m

/-! ## Attribute mappings (Python `dict` with insertion order) -/

/-- The values an attribute mapping can hold: strings, the floats produced
for `dcpp_init_year` (only integral year values arise, embedded as `Int`),
and the `np.nan` missing marker (distinct from every other value, and
excluded from group keys like a pandas missing value). -/
inductive Value : Type
  | vstr (s : String)
  | vnum (n : Int)
  | nan
  deriving DecidableEq, Repr

/-- An attribute mapping: association list in insertion order, models a
Python `dict`. -/
def AttrMap : Type := List (String × Value)

instance : DecidableEq AttrMap := by unfold AttrMap; infer_instance

instance {e a : Type} [DecidableEq e] [DecidableEq a] : DecidableEq (Except e a)
  | .error x, .error y => decidable_of_iff (x = y) (by simp)
  | .error _, .ok _ => isFalse (by intro h; cases h)
  | .ok _, .error _ => isFalse (by intro h; cases h)
  | .ok x, .ok y => decidable_of_iff (x = y) (by simp)

/-- Python `m[k]` lookup. -/
def alookup (m : AttrMap) (k : String) : Option Value :=
  match m with
  | [] => none
  | (k', v) :: t => if k' = k then some v else alookup t k

/-- Lookup expecting a string value (every field read back by the parsers
was bound to a string). -/
def alookupStr (m : AttrMap) (k : String) : Option String :=
  match alookup m k with
  | some (Value.vstr s) => some s
  | _ => none

/-- Python `m[k] = v` assignment: overwrite in place, else append — Python `dict`
insertion-order semantics. -/
def ainsert (m : AttrMap) (k : String) (v : Value) : AttrMap :=
  match m with
  | [] => [(k, v)]
  | (k', v') :: t => if k' = k then (k, v) :: t else (k', v') :: ainsert t k v

/-- The keys of a mapping. -/
def adom (m : AttrMap) : List String := m.map Prod.fst

/-! ## Template reverse-matching -/

/-- A filename template, as the ordered list of its placeholder names; the
literal separators are `_` between placeholders and a trailing `.nc`. -/
def Template : Type := List String

/-- Modelled from the spec: one template match inside
`core.reverse_filename_format` (`core.py` is not among the given sources).
A template matches when the filename carries the `.nc` extension and
splitting the rest on the literal `_` separators yields exactly as many
dynamic segments as there are placeholders; each placeholder is then bound
to its corresponding segment, in template order. -/
def matchTemplate (fields : Template) (basename : String) : Option AttrMap :=
  if pyEndsWith basename ".nc" then
    let segs := pySplit (pyDropSuffix basename ".nc") "_"
    if segs.length = fields.length then
      some ((fields.zip segs).map fun p => (p.1, Value.vstr p.2))
    else none
  else none

/-- Modelled from the spec: `core.reverse_filename_format(basename, templates)`
(`core.py` is not among the given sources).  Templates are tried strictly
in list order and the first structural match wins; when no template
matches, the mismatch signal is absorbed into the empty mapping (the
parser then records a partial result). -/
def reverse_filename_format (basename : String) : List Template → AttrMap
  | [] => []
  | t :: rest =>
    match matchTemplate t basename with
    | some m => m
    | none => reverse_filename_format basename rest

/-- The two CMIP6 filename templates, full one first:
`{variable_id}_{table_id}_{source_id}_{experiment_id}_{member_id}_{grid_label}_{time_range}.nc`
and the gridspec variant without `{time_range}`. -/
def cmip6Templates : List Template :=
  [ ["variable_id", "table_id", "source_id", "experiment_id", "member_id",
     "grid_label", "time_range"],
    ["variable_id", "table_id", "source_id", "experiment_id", "member_id",
     "grid_label"] ]

/-- The two CMIP5 filename templates, full one first. -/
def cmip5Templates : List Template :=
  [ ["variable", "mip_table", "model", "experiment", "ensemble_member",
     "temporal_subset"],
    ["variable", "mip_table", "model", "experiment", "ensemble_member"] ]

/-! ## `parseCmip6` -/

/-- The `fileparts` mapping bound by the template matcher in
`parseCmip6` (line 39 of `cmip.py`). -/
def cmip6Fileparts (filepath : String) : AttrMap :=
  reverse_filename_format (osBasename filepath) cmip6Templates

/-- The `try` block of `parseCmip6` (lines 40–57 of `cmip.py`) up to the
`path` assignment, with each fallible Python operation made explicit:
`.error m` models an exception escaping to the bare `except` with the
mapping mutated so far being `m`; `.ok m` models reaching line 52.
Fallible steps, in source order: the `fileparts['source_id']` and
`fileparts['variable_id']` dict lookups (`KeyError`), the `[1]` subscript
on the `variable_id` split (`IndexError`), and the `[-2]`/`[-1]`
subscripts on `part_1` (`IndexError`). -/
def cmip6TryBody (filepath : String) (fp0 : AttrMap) : Except AttrMap AttrMap :=
  let parent := pyStrip (osDirname filepath) "/"
  match alookupStr fp0 "source_id" with
  | none => .error fp0
  | some sid =>
    let parent_split := pySplit parent ("/" ++ sid ++ "/")
    let part_1 := pySplit (pyStrip (parent_split.headD "") "/") "/"
    match alookupStr fp0 "variable_id" with
    | none => .error fp0
    | some vid =>
      match (pySplit parent ("/" ++ vid ++ "/")).get? 1 with
      | none => .error fp0
      | some seg =>
        let grid_label := (pySplit (pyStrip seg "/") "/").headD ""
        let m1 := ainsert fp0 "grid_label" (Value.vstr grid_label)
        match pyNegIdx part_1 2 with
        | none => .error m1
        | some act =>
          let m2 := ainsert m1 "activity_id" (Value.vstr act)
          match pyNegIdx part_1 1 with
          | none => .error m2
          | some inst =>
            let m3 := ainsert m2 "institution_id" (Value.vstr inst)
            let version := (searchVersion parent).getD "v0"
            let m4 := ainsert m3 "version" (Value.vstr version)
            .ok (ainsert m4 "path" (Value.vstr filepath))

/-- Result of the directory-derived extraction of `parseCmip6` on the
matcher output. -/
def cmip6DirResult (filepath : String) : Except AttrMap AttrMap :=
  cmip6TryBody filepath (cmip6Fileparts filepath)

/-- The mapping as it stands after the directory-derived steps, whether or
not they raised (the bare `except: pass` keeps the mutations made so
far). -/
def cmip6AfterDir (filepath : String) : AttrMap :=
  match cmip6DirResult filepath with
  | .ok m => m
  | .error m => m

/-- Python `float(s)` as used on the `member_id` prefix: the only values
that arise are non-negative integral years, so the embedding accepts
exactly the non-empty all-digit strings and fails (`None`, i.e. a raised
`ValueError`) on everything else. -/
def pyFloat (s : String) : Option Int :=
  if s.toList ≠ [] ∧ s.toList.all isDigit then
    some (Int.ofNat (s.toList.foldl (fun n c => n * 10 + (c.toNat - 48)) 0))
  else none

/-- Lines 52–56 of `cmip.py`: the `member_id` post-processing, still inside
the `try` block — a `ValueError` from `float` escapes to the bare `except`
with the mapping unchanged (the failing assignment never executes). -/
def cmip6MemberStep (m : AttrMap) : AttrMap :=
  match alookupStr m "member_id" with
  | none => m
  | some mid =>
    if pyStartsWith mid "s" then
      match pyFloat (pyDrop1 ((pySplit mid "-").headD "")) with
      | none => m
      | some x =>
        ainsert (ainsert m "dcpp_init_year" (Value.vnum x)) "member_id"
          (Value.vstr ((pySplit mid "-").getLastD ""))
    else
      ainsert m "dcpp_init_year" Value.nan

/-- The parser `parseCmip6` (lines 11–61 of `cmip.py`). -/
def parseCmip6 (filepath : String) : AttrMap :=
  match cmip6DirResult filepath with
  | .error m => m
  | .ok m => cmip6MemberStep m

/-! ## `parseCmip5` -/

/-- The literal alternatives of the CMIP5 frequency regex
`/3hr/|/6hr/|/day/|/fx/|/mon/|/monClim/|/subhr/|/yr/`. -/
def cmip5FreqLits : List String :=
  ["/3hr/", "/6hr/", "/day/", "/fx/", "/mon/", "/monClim/", "/subhr/", "/yr/"]

/-- The literal alternatives of the CMIP5 realm regex
`aerosol|atmos|land|landIce|ocean|ocnBgchem|seaIce`. -/
def cmip5RealmLits : List String :=
  ["aerosol", "atmos", "land", "landIce", "ocean", "ocnBgchem", "seaIce"]

/-- The extractor's missing marker stored into the mapping (Python `None`,
uniform missing value in the catalog). -/
def optValue : Option String → Value
  | some s => Value.vstr s
  | none => Value.nan

/-- The `try` block of `parseCmip5` (lines 92–98 of `cmip.py`): the
`fileparts['experiment']` lookup (`KeyError`), the two-name unpacking of
the split (`ValueError` unless exactly two parts), and the `[-2]`/`[-3]`
subscripts (`IndexError`); `institute` is assigned before `product_id`
can fail. -/
def cmip5TryBody (filepath : String) (m : AttrMap) : AttrMap :=
  match alookupStr m "experiment" with
  | none => m
  | some exp =>
    match pySplit (osDirname filepath) exp with
    | [p1, _] =>
      let part1 := pySplit (pyStrip p1 "/") "/"
      match pyNegIdx part1 2 with
      | none => m
      | some inst =>
        let m1 := ainsert m "institute" (Value.vstr inst)
        match pyNegIdx part1 3 with
        | none => m1
        | some prod => ainsert m1 "product_id" (Value.vstr prod)
    | _ => m

/-- The parser `parseCmip5` (lines 64–100 of `cmip.py`): `frequency`,
`modeling_realm`, `version` and `path` are assigned unconditionally
(the regex searches run over the full `filepath`), then the directory
split runs inside its own `try`. -/
def parseCmip5 (filepath : String) : AttrMap :=
  let fileparts := reverse_filename_format (osBasename filepath) cmip5Templates
  let frequency := findFirstLiteral cmip5FreqLits filepath (some "/")
  let realm := findFirstLiteral cmip5RealmLits filepath none
  let version := (searchVersion filepath).getD "v0"
  let m1 := ainsert fileparts "frequency" (optValue frequency)
  let m2 := ainsert m1 "modeling_realm" (optValue realm)
  let m3 := ainsert m2 "version" (Value.vstr version)
  let m4 := ainsert m3 "path" (Value.vstr filepath)
  cmip5TryBody filepath m4

/-! ## The catalog table and `_pick_latest_version`

The assembled catalog (a pandas `DataFrame`) is embedded as a column list
plus rows of values aligned with it.  The pandas behaviours
`_pick_latest_version` relies on are embedded explicitly: `groupby`
excludes every row with a missing value in any grouping column,
`nunique` counts distinct non-missing values, and
`sort_values(ascending=False)` puts missing values last. -/

/-- A catalog table: a fixed column schema and rows aligned with it. -/
structure DataFrame : Type where
  columns : List String
  rows : List (List Value)
  deriving DecidableEq, Repr

/-- The value of `row` in column `c` (`Value.nan` for a row shorter than
the schema, the assembler's missing marker). -/
def colValue (cols : List String) (row : List Value) (c : String) : Value :=
  match cols.findIdx? (fun c' => c' = c) with
  | some i => row.getD i Value.nan
  | none => Value.nan

/-- The grouping columns: every column but `path` and `version` —
`grpby = list(set(df.columns.tolist()) - ...)` of line 106 of `cmip.py`;
the resulting partition does not depend on the order `set` happens to
produce, so column order is kept. -/
def grpbyCols (df : DataFrame) : List String :=
  df.columns.filter (fun c => !(c = "path" : Bool) && !(c = "version" : Bool))

/-- The `groupby` key of a row: its values on all grouping columns. -/
def rowKey (df : DataFrame) (row : List Value) : List Value :=
  (grpbyCols df).map (colValue df.columns row)

/-- Whether a group key contains a missing value — pandas `groupby` drops
such rows from every group. -/
def keyHasNan (k : List Value) : Bool :=
  k.any (fun v => v = Value.nan)

/-- The rows of `df` paired with their (positional) index. -/
def indexedRows (df : DataFrame) : List (Nat × List Value) :=
  df.rows.enum

/-- The rows that participate in the `groupby` partition. -/
def validRows (df : DataFrame) : List (Nat × List Value) :=
  (indexedRows df).filter (fun ir => !keyHasNan (rowKey df ir.2))

/-- The distinct group keys of the partition. -/
def dfKeys (df : DataFrame) : List (List Value) :=
  ((validRows df).map (fun ir => rowKey df ir.2)).dedup

/-- The group of a key: all participating rows with that key. -/
def groupOf (df : DataFrame) (k : List Value) : List (Nat × List Value) :=
  (validRows df).filter (fun ir => decide (rowKey df ir.2 = k))

/-- The `version` value of an indexed row. -/
def versionOf (df : DataFrame) (ir : Nat × List Value) : Value :=
  colValue df.columns ir.2 "version"

/-- Pandas `group.version.nunique()`: the number of distinct non-missing version
values of a group. -/
def nuniqueVersion (df : DataFrame) (g : List (Nat × List Value)) : Nat :=
  (((g.map (versionOf df)).filter (fun v => !(v = Value.nan : Bool))).dedup).length

/-- Descending comparison on version values, missing values last —
`sort_values(by=['version'], ascending=False)` ordering (pandas keeps
`NaN` at the end regardless of direction). -/
def strLe : List Char → List Char → Bool
  | [], _ => true
  | _ :: _, [] => false
  | a :: as, b :: bs =>
    if a.toNat < b.toNat then true
    else if b.toNat < a.toNat then false
    else strLe as bs

/-- Comparison `vbefore a b`: the row holding version `a` may be placed before the row
holding version `b` in the descending sort. -/
def vbefore : Value → Value → Bool
  | Value.nan, Value.nan => true
  | Value.nan, _ => false
  | _, Value.nan => true
  | Value.vstr a, Value.vstr b => strLe b.toList a.toList
  | Value.vstr _, Value.vnum _ => true
  | Value.vnum _, Value.vstr _ => false
  | Value.vnum a, Value.vnum b => decide (b ≤ a)

/-- Pandas `group.sort_values(by=['version'], ascending=False)`. -/
def sortGroup (df : DataFrame) (g : List (Nat × List Value)) :
    List (Nat × List Value) :=
  List.insertionSort (fun a b => vbefore (versionOf df a) (versionOf df b) = true) g

/-- The delayed `_pick_latest_v` task (lines 109–114 of `cmip.py`): for one
group, the indices marked for removal — every index but the first of the
descending sort when the group has more than one distinct version, nothing
otherwise. -/
def _pick_latest_v (df : DataFrame) (g : List (Nat × List Value)) : List Nat :=
  if nuniqueVersion df g > 1 then ((sortGroup df g).drop 1).map Prod.fst
  else []

/-- The concatenation of all per-group removal lists (lines 116–121). -/
def idxToRemove (df : DataFrame) : List Nat :=
  (dfKeys df).flatMap (fun k => _pick_latest_v df (groupOf df k))

/-- The function `_pick_latest_version` (lines 103–124 of `cmip.py`):
`df.drop(index=idx_to_remove)`. -/
def _pick_latest_version (df : DataFrame) : DataFrame :=
  { df with
    rows :=
      ((indexedRows df).filter (fun ir => !decide (ir.1 ∈ idxToRemove df))).map
        Prod.snd }

/-- The rows of one group that survive `_pick_latest_version`. -/
def survivorsOfGroup (df : DataFrame) (k : List Value) : List (Nat × List Value) :=
  (groupOf df k).filter (fun ir => !decide (ir.1 ∈ idxToRemove df))

/-! ## The controlled-vocabulary filter and the CLI checks -/

/-- The filtering step `df = df[df.activity_id.isin(activity_ids)]` of
`build_cmip` (line 182 of `cmip.py`): a row passes when its
`activity_id` value is one of the permitted strings (a missing value is
a member of no string set, as with pandas `isin`). -/
def activityIsin (cols : List String) (allowed : List String) (row : List Value) : Bool :=
  match colValue cols row "activity_id" with
  | Value.vstr s => allowed.contains s
  | _ => false

/-- The controlled-vocabulary filter of `build_cmip` for the newer
convention, with the externally fetched permitted set passed in. -/
def filterActivity (df : DataFrame) (allowed : List String) : DataFrame :=
  { df with rows := df.rows.filter (activityIsin df.columns allowed) }

/-- The `cli` entry point (lines 209–221 of `cmip.py`), abstracted over
everything that happens after its two configuration checks: the catalog
that `build_cmip` would assemble (filesystem traversal, parsing,
filtering) is a parameter, consumed only after both checks pass.
The checks, in source order: `cmip_version not in set([5, 6])` raises
`ValueError`, then a missing `csv_filepath` raises `ValueError`. -/
def cli (cmip_version : Option Int) (csv_filepath : Option String)
    (builtCatalog : DataFrame) : Except String DataFrame :=
  if ¬(cmip_version = some 5 ∨ cmip_version = some 6) then
    .error "cmip_version is not valid. Valid options include: 5 and 6."
  else
    match csv_filepath with
    | none => .error "Please provide csv-filepath. e.g.: ./cmip5.csv.gz"
    | some _ => .ok builtCatalog

/-! ## Concrete inputs used to instantiate the theorems -/

/-- The CMIP6 example path of the specification (§8). -/
def examplePath6 : String :=
  ".../CMIP6/ScenarioMIP/NOAA/GFDL-CM4/ssp585/r1i1p1f1/Amon/tas/gn/v20180701/tas_Amon_GFDL-CM4_ssp585_r1i1p1f1_gn_201501-210012.nc"

/-- A conforming filename with no directory part: the directory-derived
steps of `parseCmip6` raise before `path`/`version` are assigned. -/
def bareFilename : String :=
  "tas_Amon_src_exp_r1i1p1f1_gn_200001-200012.nc"

/-- A path whose only version token sits in the *filename*; the directory
levels carry none. -/
def filenameVersionPath : String :=
  "era/act/inst/src/exp/r1i1p1f1/Amon/tas/gn/nover/tas_Amon_src_exp_r1i1p1f1_gn_v20180701.nc"

/-- An initialized-prediction path with `member_id = s1960-r2i1p1f1`. -/
def dcppPath : String :=
  "era/DCPP/inst/src/dcppA-hindcast/s1960-r2i1p1f1/day/pr/gn/v20190101/pr_day_src_dcppA-hindcast_s1960-r2i1p1f1_gn_198001-198412.nc"

/-- A path whose `member_id` begins with `s` but whose prefix (`sx`) does
not convert to a float. -/
def badDcppPath : String :=
  "era/act/inst/src/exp/sx-r1i1p1f1/Amon/tas/gn/v1/tas_Amon_src_exp_sx-r1i1p1f1_gn_200001-200012.nc"

/-- Two rows of one logical dataset carrying the *same* version under
different paths. -/
def dfSameVersion : DataFrame :=
  { columns := ["experiment_id", "version", "path"],
    rows := [[Value.vstr "e", Value.vstr "v1", Value.vstr "p1"],
             [Value.vstr "e", Value.vstr "v1", Value.vstr "p2"]] }

/-- Two rows of one logical dataset carrying two distinct date-coded
versions. -/
def dfTwoVersions : DataFrame :=
  { columns := ["experiment_id", "version", "path"],
    rows := [[Value.vstr "e", Value.vstr "v20170101", Value.vstr "p1"],
             [Value.vstr "e", Value.vstr "v20180701", Value.vstr "p2"]] }

/-- Two rows differing only in `path`/`version` whose `dcpp_init_year`
grouping column is the missing marker. -/
def dfNanKey : DataFrame :=
  { columns := ["experiment_id", "dcpp_init_year", "version", "path"],
    rows := [[Value.vstr "e", Value.nan, Value.vstr "v1", Value.vstr "p1"],
             [Value.vstr "e", Value.nan, Value.vstr "v2", Value.vstr "p2"]] }

/-- A catalog with one conforming and one non-conforming `activity_id`. -/
def dfVocab : DataFrame :=
  { columns := ["activity_id", "path"],
    rows := [[Value.vstr "ScenarioMIP", Value.vstr "p"],
             [Value.vstr "junk", Value.vstr "q"]] }

/-! ## Lemmas about the ordering used by the descending sort -/

theorem strLe_refl (l : List Char) : strLe l l = true := by
  induction l with
  | nil => rfl
  | cons a as ih => simp [strLe, lt_self_iff_false, ih]

theorem strLe_total (a b : List Char) : strLe a b = true ∨ strLe b a = true := by
  induction a generalizing b with
  | nil => left; rfl
  | cons x xs ih =>
    cases b with
    | nil => right; rfl
    | cons y ys =>
      rcases Nat.lt_trichotomy x.toNat y.toNat with h | h | h
      · left; simp [strLe, h]
      · rcases ih ys with h' | h'
        · left; simp [strLe, h, lt_self_iff_false, h']
        · right; simp [strLe, h, lt_self_iff_false, h']
      · right; simp [strLe, h]

theorem strLe_trans {a b c : List Char} (hab : strLe a b = true)
    (hbc : strLe b c = true) : strLe a c = true := by
  induction a generalizing b c with
  | nil => rfl
  | cons x xs ih =>
    cases b with
    | nil => simp [strLe] at hab
    | cons y ys =>
      cases c with
      | nil => simp [strLe] at hbc
      | cons z zs =>
        simp only [strLe] at hab hbc ⊢
        by_cases h1 : x.toNat < y.toNat
        · by_cases h3 : z.toNat < y.toNat
          · rw [if_neg (by omega), if_pos h3] at hbc; simp at hbc
          · rw [if_pos (show x.toNat < z.toNat by
              by_cases h2 : y.toNat < z.toNat <;> omega)]
        · by_cases h1' : y.toNat < x.toNat
          · rw [if_neg h1, if_pos h1'] at hab; simp at hab
          · rw [if_neg h1, if_neg h1'] at hab
            by_cases h2 : y.toNat < z.toNat
            · rw [if_pos (show x.toNat < z.toNat by omega)]
            · by_cases h3 : z.toNat < y.toNat
              · rw [if_neg h2, if_pos h3] at hbc; simp at hbc
              · rw [if_neg h2, if_neg h3] at hbc
                rw [if_neg (show ¬x.toNat < z.toNat by omega),
                  if_neg (show ¬z.toNat < x.toNat by omega)]
                exact ih hab hbc

theorem vbefore_refl (v : Value) : vbefore v v = true := by
  cases v <;> simp [vbefore, strLe_refl]

theorem vbefore_total (a b : Value) : vbefore a b = true ∨ vbefore b a = true := by
  cases a <;> cases b <;> simp [vbefore]
  · exact (strLe_total _ _).symm
  · omega

theorem vbefore_trans {a b c : Value} (hab : vbefore a b = true)
    (hbc : vbefore b c = true) : vbefore a c = true := by
  cases a <;> cases b <;> cases c <;> simp_all [vbefore]
  · exact strLe_trans hbc hab
  · omega

theorem vbefore_nan_left {v : Value} (h : vbefore Value.nan v = true) :
    v = Value.nan := by
  cases v <;> simp_all [vbefore]

/-! ## Lemmas about attribute mappings -/

theorem alookup_ainsert_self (m : AttrMap) (k : String) (v : Value) :
    alookup (ainsert m k v) k = some v := by
  induction m with
  | nil => simp [ainsert, alookup]
  | cons p t ih =>
    obtain ⟨k', v'⟩ := p
    by_cases h : k' = k <;> simp [ainsert, alookup, h, ih]

theorem alookup_ainsert_ne (m : AttrMap) {k k' : String} (h : k' ≠ k)
    (v : Value) : alookup (ainsert m k v) k' = alookup m k' := by
  induction m with
  | nil => simp [ainsert, alookup, Ne.symm h]
  | cons p t ih =>
    obtain ⟨k'', v''⟩ := p
    by_cases h2 : k'' = k
    · subst h2; simp [ainsert, alookup, Ne.symm h]
    · by_cases h3 : k'' = k' <;> simp [ainsert, alookup, h2, h3, h, ih]

theorem mem_adom_ainsert {m : AttrMap} {k k' : String} {v : Value} :
    k' ∈ adom (ainsert m k v) ↔ k' = k ∨ k' ∈ adom m := by
  induction m with
  | nil => simp [ainsert, adom]
  | cons p t ih =>
    obtain ⟨k'', v''⟩ := p
    by_cases h : k'' = k
    · subst h; simp [ainsert, adom]
    · simp only [ainsert, adom, h, if_false, List.map_cons, List.mem_cons] at ih ⊢
      rw [ih]; tauto

theorem alookup_eq_none_iff {m : AttrMap} {k : String} :
    alookup m k = none ↔ k ∉ adom m := by
  induction m with
  | nil => simp [alookup, adom]
  | cons p t ih =>
    obtain ⟨k', v'⟩ := p
    by_cases h : k' = k
    · subst h; simp [alookup, adom]
    · simp [alookup, adom, h, ih, Ne.symm h]

/-! ## Lemmas about the `groupby` partition and the removal set -/

theorem mem_indexedRows_iff {df : DataFrame} {i : Nat} {r : List Value} :
    (i, r) ∈ indexedRows df ↔ df.rows.get? i = some r := by
  simpa [indexedRows] using List.mk_mem_enum_iff_get?

theorem indexedRows_functional {df : DataFrame} {i : Nat} {r r' : List Value}
    (h : (i, r) ∈ indexedRows df) (h' : (i, r') ∈ indexedRows df) : r = r' := by
  rw [mem_indexedRows_iff] at h h'
  rw [h] at h'
  exact Option.some_injective _ h'

theorem mem_validRows_iff {df : DataFrame} {ir : Nat × List Value} :
    ir ∈ validRows df ↔
      ir ∈ indexedRows df ∧ keyHasNan (rowKey df ir.2) = false := by
  simp [validRows, List.mem_filter]

theorem mem_groupOf_iff {df : DataFrame} {k : List Value} {ir : Nat × List Value} :
    ir ∈ groupOf df k ↔ ir ∈ validRows df ∧ rowKey df ir.2 = k := by
  simp [groupOf, List.mem_filter]

theorem key_mem_dfKeys {df : DataFrame} {ir : Nat × List Value}
    (h : ir ∈ validRows df) : rowKey df ir.2 ∈ dfKeys df := by
  simp only [dfKeys, List.mem_dedup, List.mem_map]
  exact ⟨ir, h, rfl⟩

theorem sortGroup_perm (df : DataFrame) (g : List (Nat × List Value)) :
    (sortGroup df g).Perm g :=
  List.perm_insertionSort _ g

theorem mem_pick_latest_v {df : DataFrame} {g : List (Nat × List Value)} {i : Nat}
    (h : i ∈ _pick_latest_v df g) :
    ∃ ir, ir ∈ (sortGroup df g).drop 1 ∧ ir.1 = i ∧ ir ∈ g := by
  unfold _pick_latest_v at h
  split at h
  · obtain ⟨ir, hir, hfst⟩ := List.mem_map.mp h
    refine ⟨ir, hir, hfst, ?_⟩
    exact (sortGroup_perm df g).mem_iff.mp ((List.drop_sublist 1 _).mem hir)
  · simp at h

theorem mem_idxToRemove_iff {df : DataFrame} {i : Nat} :
    i ∈ idxToRemove df ↔
      ∃ k ∈ dfKeys df, i ∈ _pick_latest_v df (groupOf df k) := by
  simp [idxToRemove, List.mem_flatMap]

/-- A removed index of a row of group `k` is marked by that group's own
task: groups are disjoint, and indices determine rows. -/
theorem groupOf_removal_iff {df : DataFrame} {k : List Value}
    {ir : Nat × List Value} (h : ir ∈ groupOf df k) :
    ir.1 ∈ idxToRemove df ↔ ir.1 ∈ _pick_latest_v df (groupOf df k) := by
  constructor
  · intro hrem
    obtain ⟨k', _, hi⟩ := mem_idxToRemove_iff.mp hrem
    obtain ⟨ir', _, hfst, hg'⟩ := mem_pick_latest_v hi
    have heq : ir' = ir := by
      have henum' := (mem_validRows_iff.mp (mem_groupOf_iff.mp hg').1).1
      have henum := (mem_validRows_iff.mp (mem_groupOf_iff.mp h).1).1
      obtain ⟨i', r'⟩ := ir'
      obtain ⟨i, r⟩ := ir
      simp only at hfst
      subst hfst
      have := indexedRows_functional henum' henum
      simp [this]
    have hkeq : k' = k := by
      have h1 := (mem_groupOf_iff.mp hg').2
      have h2 := (mem_groupOf_iff.mp h).2
      rw [heq] at h1
      exact h1.symm.trans h2
    rw [hkeq] at hi
    exact hi
  · intro hi
    have hval := (mem_groupOf_iff.mp h).1
    have hk : k ∈ dfKeys df := by
      rw [← (mem_groupOf_iff.mp h).2]
      exact key_mem_dfKeys hval
    exact mem_idxToRemove_iff.mpr ⟨k, hk, hi⟩

theorem groupOf_fst_nodup (df : DataFrame) (k : List Value) :
    ((groupOf df k).map Prod.fst).Nodup := by
  have h1 : (groupOf df k).Sublist (indexedRows df) :=
    (List.filter_sublist _).trans (List.filter_sublist _)
  have h2 := h1.map Prod.fst
  have h3 : List.map Prod.fst (indexedRows df) = List.range df.rows.length :=
    List.enum_map_fst _
  rw [h3] at h2
  exact List.Nodup.sublist h2 (List.nodup_range _)

theorem groupOf_nodup (df : DataFrame) (k : List Value) : (groupOf df k).Nodup :=
  List.Nodup.of_map Prod.fst (groupOf_fst_nodup df k)

theorem filter_eq_singleton_of_mem {α : Type} {p : α → Bool} {l : List α} {a : α}
    (hnd : l.Nodup) (ha : a ∈ l) (hp : ∀ x ∈ l, p x = true ↔ x = a) :
    l.filter p = [a] := by
  induction l with
  | nil => cases ha
  | cons b t ih =>
    rw [List.nodup_cons] at hnd
    by_cases hba : b = a
    · subst hba
      rw [List.filter_cons_of_pos ((hp b (List.mem_cons_self b t)).mpr rfl)]
      have ht : t.filter p = [] := by
        rw [List.filter_eq_nil_iff]
        intro x hx hpx
        exact hnd.1 (((hp x (List.mem_cons_of_mem _ hx)).mp hpx) ▸ hx)
      rw [ht]
    · have ha' : a ∈ t := by
        rcases List.mem_cons.mp ha with h | h
        · exact absurd h.symm hba
        · exact h
      rw [List.filter_cons_of_neg]
      · exact ih hnd.2 ha' (fun x hx => hp x (List.mem_cons_of_mem _ hx))
      · intro hpb
        exact hba ((hp b (List.mem_cons_self b t)).mp hpb)

/-- When a group has at most one distinct (non-missing) version value, its
removal list is empty and every row of the group survives. -/
theorem survivorsOfGroup_of_nunique_le {df : DataFrame} {k : List Value}
    (h : nuniqueVersion df (groupOf df k) ≤ 1) :
    survivorsOfGroup df k = groupOf df k := by
  unfold survivorsOfGroup
  rw [List.filter_eq_self]
  intro ir hir
  have hiff := groupOf_removal_iff hir
  have hempty : _pick_latest_v df (groupOf df k) = [] := by
    unfold _pick_latest_v
    rw [if_neg]
    omega
  rw [hempty] at hiff
  simp only [List.not_mem_nil, iff_false] at hiff
  simp [hiff]

/-- When a group has more than one distinct version value, exactly the
head of the descending sort survives, and its version is maximal in the
group. -/
theorem survivorsOfGroup_of_nunique_gt {df : DataFrame} {k : List Value}
    (h : 1 < nuniqueVersion df (groupOf df k)) :
    survivorsOfGroup df k = (sortGroup df (groupOf df k)).take 1 ∧
      ∀ hd ∈ (sortGroup df (groupOf df k)).take 1, ∀ ir ∈ groupOf df k,
        vbefore (versionOf df hd) (versionOf df ir) = true := by
  have hne : groupOf df k ≠ [] := by
    intro h0
    rw [h0] at h
    simp [nuniqueVersion] at h
  have hsne : sortGroup df (groupOf df k) ≠ [] := by
    intro h0
    have hperm := sortGroup_perm df (groupOf df k)
    rw [h0] at hperm
    exact hne hperm.nil_eq.symm
  obtain ⟨hd, t, hs⟩ := List.exists_cons_of_ne_nil hsne
  have hpick : _pick_latest_v df (groupOf df k) = t.map Prod.fst := by
    unfold _pick_latest_v
    rw [if_pos h, hs]
    rfl
  have hnd : (groupOf df k).Nodup := groupOf_nodup df k
  have hsnd : (hd :: t).Nodup := by
    rw [← hs]
    exact ((sortGroup_perm df (groupOf df k)).nodup_iff).mpr hnd
  have hmemiff : ∀ ir, ir ∈ groupOf df k ↔ ir ∈ hd :: t := by
    intro ir
    rw [← hs]
    exact ((sortGroup_perm df (groupOf df k)).mem_iff).symm
  have hhdg : hd ∈ groupOf df k := (hmemiff hd).mpr (List.mem_cons_self hd t)
  have hchar : ∀ ir ∈ groupOf df k,
      (!decide (ir.1 ∈ idxToRemove df)) = true ↔ ir = hd := by
    intro ir hir
    have hiff := groupOf_removal_iff hir
    rw [hpick] at hiff
    constructor
    · intro hsurv
      simp only [Bool.not_eq_true', decide_eq_false_iff_not] at hsurv
      rcases List.mem_cons.mp ((hmemiff ir).mp hir) with h' | h'
      · exact h'
      · exact absurd (hiff.mpr (List.mem_map.mpr ⟨ir, h', rfl⟩)) hsurv
    · intro heq
      subst heq
      simp only [Bool.not_eq_true', decide_eq_false_iff_not]
      intro hrem
      obtain ⟨ir', hir't, hfst⟩ := List.mem_map.mp (hiff.mp hrem)
      have hir'g : ir' ∈ groupOf df k :=
        (hmemiff ir').mpr (List.mem_cons_of_mem _ hir't)
      have : ir' = ir := by
        have henum' := (mem_validRows_iff.mp (mem_groupOf_iff.mp hir'g).1).1
        have henum := (mem_validRows_iff.mp (mem_groupOf_iff.mp hir).1).1
        obtain ⟨i', r'⟩ := ir'
        obtain ⟨i, r⟩ := ir
        simp only at hfst
        subst hfst
        have := indexedRows_functional henum' henum
        simp [this]
      rw [this] at hir't
      rw [List.nodup_cons] at hsnd
      exact hsnd.1 hir't
  have hsingle : survivorsOfGroup df k = [hd] := by
    unfold survivorsOfGroup
    exact filter_eq_singleton_of_mem hnd hhdg hchar
  have hsorted : List.Sorted
      (fun a b => vbefore (versionOf df a) (versionOf df b) = true)
      (sortGroup df (groupOf df k)) := by
    haveI : IsTotal (Nat × List Value)
        (fun a b => vbefore (versionOf df a) (versionOf df b) = true) :=
      ⟨fun a b => vbefore_total _ _⟩
    haveI : IsTrans (Nat × List Value)
        (fun a b => vbefore (versionOf df a) (versionOf df b) = true) :=
      ⟨fun _ _ _ hab hbc => vbefore_trans hab hbc⟩
    exact List.sorted_insertionSort _ _
  rw [hs] at hsorted
  rw [List.Sorted, List.pairwise_cons] at hsorted
  constructor
  · rw [hsingle, hs]
    rfl
  · intro hd' hhd' ir hir
    rw [hs] at hhd'
    have : hd' = hd := by
      simpa using hhd'
    subst this
    rcases List.mem_cons.mp ((hmemiff ir).mp hir) with h' | h'
    · rw [h']
      exact vbefore_refl _
    · exact hsorted.1 ir h'

/-! ## Lemmas about the parsers -/

theorem adom_matchTemplate {fl : Template} {b : String} {m : AttrMap}
    (h : matchTemplate fl b = some m) : adom m = fl := by
  unfold matchTemplate at h
  split at h
  · simp only [] at h
    split at h
    next hlen =>
      injection h with h'
      subst h'
      unfold adom
      rw [List.map_map]
      have hcomp : (Prod.fst ∘ fun p : String × String => (p.1, Value.vstr p.2))
          = Prod.fst := by
        funext p
        rfl
      rw [hcomp]
      exact List.map_fst_zip _ _ (le_of_eq hlen.symm)
    next => exact absurd h (by simp)
  · exact absurd h (by simp)

theorem cmip6Fileparts_keys {fp : String} {k : String}
    (hk : k ∈ adom (cmip6Fileparts fp)) :
    k ∈ ["variable_id", "table_id", "source_id", "experiment_id", "member_id",
         "grid_label", "time_range"] := by
  unfold cmip6Fileparts cmip6Templates reverse_filename_format at hk
  split at hk
  next m1 h1 =>
    rw [adom_matchTemplate h1] at hk
    exact hk
  next =>
    unfold reverse_filename_format at hk
    split at hk
    next m2 h2 =>
      rw [adom_matchTemplate h2] at hk
      simp only [List.mem_cons] at hk ⊢
      tauto
    next =>
      unfold reverse_filename_format adom at hk
      simp at hk

/-- Every mapping escaping the `try` block of `parseCmip6` through the
`except` is the matcher output possibly extended by `grid_label` and
`activity_id` — the only assignments that can precede a failure. -/
theorem cmip6TryBody_error_shape {fp : String} {fp0 m : AttrMap}
    (h : cmip6TryBody fp fp0 = .error m) :
    m = fp0 ∨ (∃ g, m = ainsert fp0 "grid_label" g) ∨
      (∃ g a, m = ainsert (ainsert fp0 "grid_label" g) "activity_id" a) := by
  unfold cmip6TryBody at h
  simp only [] at h
  split at h
  · injection h with h'
    exact Or.inl h'.symm
  · split at h
    · injection h with h'
      exact Or.inl h'.symm
    · split at h
      · injection h with h'
        exact Or.inl h'.symm
      · split at h
        · injection h with h'
          exact Or.inr (Or.inl ⟨_, h'.symm⟩)
        · split at h
          · injection h with h'
            exact Or.inr (Or.inr ⟨_, _, h'.symm⟩)
          · exact absurd h (by simp)

/-- The mapping produced by a successful `try` block of `parseCmip6`
carries `path` equal to the input and `version` as recovered from the
stripped parent directory string. -/
theorem cmip6TryBody_ok {fp : String} {fp0 m : AttrMap}
    (h : cmip6TryBody fp fp0 = .ok m) :
    alookup m "path" = some (Value.vstr fp) ∧
    alookup m "version" =
      some (Value.vstr ((searchVersion (pyStrip (osDirname fp) "/")).getD "v0")) := by
  unfold cmip6TryBody at h
  simp only [] at h
  split at h
  · exact absurd h (by simp)
  · split at h
    · exact absurd h (by simp)
    · split at h
      · exact absurd h (by simp)
      · split at h
        · exact absurd h (by simp)
        · split at h
          · exact absurd h (by simp)
          · injection h with h'
            subst h'
            refine ⟨alookup_ainsert_self _ _ _, ?_⟩
            rw [alookup_ainsert_ne _ (by decide), alookup_ainsert_self]

/-- The `member_id` post-processing touches only `dcpp_init_year` and
`member_id`. -/
theorem cmip6MemberStep_alookup_ne {m : AttrMap} {k : String}
    (h1 : k ≠ "dcpp_init_year") (h2 : k ≠ "member_id") :
    alookup (cmip6MemberStep m) k = alookup m k := by
  unfold cmip6MemberStep
  split
  · rfl
  · split
    · split
      · rfl
      · rw [alookup_ainsert_ne _ h2, alookup_ainsert_ne _ h1]
    · rw [alookup_ainsert_ne _ h1]

theorem parseCmip6_of_error {fp : String} {m : AttrMap}
    (h : cmip6DirResult fp = .error m) : parseCmip6 fp = m := by
  unfold parseCmip6
  rw [h]

theorem parseCmip6_of_ok {fp : String} {m : AttrMap}
    (h : cmip6DirResult fp = .ok m) : parseCmip6 fp = cmip6MemberStep m := by
  unfold parseCmip6
  rw [h]

theorem cmip6AfterDir_of_ok {fp : String} {m : AttrMap}
    (h : cmip6DirResult fp = .ok m) : cmip6AfterDir fp = m := by
  unfold cmip6AfterDir
  rw [h]

/-- The `try` block of `parseCmip5` touches only `institute` and
`product_id`. -/
theorem cmip5TryBody_alookup_ne {fp : String} {m : AttrMap} {k : String}
    (h1 : k ≠ "institute") (h2 : k ≠ "product_id") :
    alookup (cmip5TryBody fp m) k = alookup m k := by
  unfold cmip5TryBody
  simp only []
  split
  · rfl
  · split
    · split
      · rfl
      · split
        · rw [alookup_ainsert_ne _ h1]
        · rw [alookup_ainsert_ne _ h2, alookup_ainsert_ne _ h1]
    · rfl

/-- A key that the matcher never binds, other than `grid_label` and
`activity_id`, is absent from every mapping escaping the `try` block of
`parseCmip6` through the `except`. -/
theorem error_map_key_absent {fp : String} {m : AttrMap} {k : String}
    (h : cmip6DirResult fp = .error m)
    (h1 : k ∉ adom (cmip6Fileparts fp)) (h2 : k ≠ "grid_label")
    (h3 : k ≠ "activity_id") : alookup m k = none := by
  unfold cmip6DirResult at h
  rw [alookup_eq_none_iff]
  intro hmem
  rcases cmip6TryBody_error_shape h with h0 | ⟨g, h0⟩ | ⟨g, a, h0⟩ <;> subst h0
  · exact h1 hmem
  · rcases mem_adom_ainsert.mp hmem with hh | hh
    · exact h2 hh
    · exact h1 hh
  · rcases mem_adom_ainsert.mp hmem with hh | hh
    · exact h3 hh
    · rcases mem_adom_ainsert.mp hh with hh2 | hh2
      · exact h2 hh2
      · exact h1 hh2

/-- The keys `version`, `path` and `dcpp_init_year` are never bound by the
template matcher of `parseCmip6`. -/
theorem cmip6Fileparts_no_special_key {fp : String} {k : String}
    (hk : k = "version" ∨ k = "path" ∨ k = "dcpp_init_year") :
    k ∉ adom (cmip6Fileparts fp) := by
  intro hmem
  have hlist := cmip6Fileparts_keys hmem
  rcases hk with h | h | h <;> subst h <;> simp at hlist

/-! ## The claims -/

/-- C1 (corrected).  The claim as stated fails: `parseCmip6` assigns
`path` and `version` *inside* its `try` block, after several fallible
steps, so a failing directory extraction leaves both absent (see the
counterexample).  What holds: `parseCmip5` always returns `path` equal
to the input and `version` recovered from the full path (defaulted to
`v0`), and `parseCmip6` does so whenever its directory-derived
extraction succeeds. -/
theorem parser_path_version_invariant (fp : String) :
    (alookup (parseCmip5 fp) "path" = some (Value.vstr fp) ∧
     alookup (parseCmip5 fp) "version" =
       some (Value.vstr ((searchVersion fp).getD "v0"))) ∧
    ((cmip6DirResult fp).isOk = true →
      alookup (parseCmip6 fp) "path" = some (Value.vstr fp) ∧
      ∃ v, alookup (parseCmip6 fp) "version" = some (Value.vstr v)) := by
  constructor
  · unfold parseCmip5
    simp only []
    constructor
    · rw [cmip5TryBody_alookup_ne (by decide) (by decide), alookup_ainsert_self]
    · rw [cmip5TryBody_alookup_ne (by decide) (by decide),
        alookup_ainsert_ne _ (by decide), alookup_ainsert_self]
  · intro hok
    cases hr : cmip6DirResult fp with
    | error m =>
      rw [hr] at hok
      simp [Except.isOk, Except.toBool] at hok
    | ok m =>
      rw [parseCmip6_of_ok hr]
      unfold cmip6DirResult at hr
      obtain ⟨hpath, hver⟩ := cmip6TryBody_ok hr
      refine ⟨?_, ?_⟩
      · rw [cmip6MemberStep_alookup_ne (by decide) (by decide)]
        exact hpath
      · exact ⟨_, by
          rw [cmip6MemberStep_alookup_ne (by decide) (by decide)]
          exact hver⟩

/-- C1 counterexample: on a conforming filename with no directory part the
very first directory-derived subscript raises, the `except` catches it,
and the returned mapping has neither `path` nor `version` — refuting
"contains a `path` field … and a `version` field … even when any other
extraction step fails" for `parseCmip6`. -/
theorem parseCmip6_path_absent_counterexample :
    alookup (parseCmip6 bareFilename) "path" = none ∧
    alookup (parseCmip6 bareFilename) "version" = none := by decide

/-- Witness for C1 at the specification's CMIP6 example path. -/
theorem parser_path_version_invariant_witness :
    alookup (parseCmip5 examplePath6) "path" = some (Value.vstr examplePath6) ∧
    alookup (parseCmip6 examplePath6) "path" = some (Value.vstr examplePath6) := by
  have h := parser_path_version_invariant examplePath6
  exact ⟨h.1.1, (h.2 (by decide)).1⟩

/-- C3 (corrected).  The claim says the version regex is searched over the
full path string; `parseCmip6` actually searches `parent`, the dirname
with surrounding slashes stripped (the counterexample has a version token
only in the filename).  What holds: whenever the directory-derived steps
succeed, `version` equals the first match of `v\d{8}|v\d{1}` in the
stripped dirname, defaulted to `v0`. -/
theorem cmip6_version_from_parent (fp : String)
    (h : (cmip6DirResult fp).isOk = true) :
    alookup (parseCmip6 fp) "version" =
      some (Value.vstr ((searchVersion (pyStrip (osDirname fp) "/")).getD "v0")) := by
  cases hr : cmip6DirResult fp with
  | error m =>
    rw [hr] at h
    simp [Except.isOk, Except.toBool] at h
  | ok m =>
    rw [parseCmip6_of_ok hr, cmip6MemberStep_alookup_ne (by decide) (by decide)]
    unfold cmip6DirResult at hr
    exact (cmip6TryBody_ok hr).2

/-- C3 counterexample: the full path contains the token `v20180701` (in
the filename), yet the parser records `v0` because the parent directory
string contains no version token. -/
theorem cmip6_version_full_path_counterexample :
    alookup (parseCmip6 filenameVersionPath) "version"
        = some (Value.vstr "v0") ∧
      searchVersion filenameVersionPath = some "v20180701" := by decide

/-- Witness for C3 at the specification's CMIP6 example path. -/
theorem cmip6_version_from_parent_witness :
    alookup (parseCmip6 examplePath6) "version"
      = some (Value.vstr "v20180701") := by
  have h := cmip6_version_from_parent examplePath6 (by decide)
  rw [h]
  decide

/-- C5 (confirmed).  When the directory-derived extraction of
`parseCmip6` raises, the parser still returns (the escaped mapping
itself), the result contains every field the template matcher had bound,
and the fields not yet assigned at the point of failure — in particular
`version`, `path` and `dcpp_init_year` — are absent. -/
theorem parseCmip6_best_effort_on_failure (fp : String) (m : AttrMap)
    (h : cmip6DirResult fp = .error m) :
    parseCmip6 fp = m ∧
    (∀ k ∈ adom (cmip6Fileparts fp), k ∈ adom m) ∧
    alookup m "version" = none ∧
    alookup m "path" = none ∧
    alookup m "dcpp_init_year" = none := by
  refine ⟨parseCmip6_of_error h, ?_, ?_, ?_, ?_⟩
  · intro k hk
    have h' := h
    unfold cmip6DirResult at h'
    rcases cmip6TryBody_error_shape h' with h0 | ⟨g, h0⟩ | ⟨g, a, h0⟩ <;> subst h0
    · exact hk
    · exact mem_adom_ainsert.mpr (Or.inr hk)
    · exact mem_adom_ainsert.mpr (Or.inr (mem_adom_ainsert.mpr (Or.inr hk)))
  · exact error_map_key_absent h (cmip6Fileparts_no_special_key (Or.inl rfl))
      (by decide) (by decide)
  · exact error_map_key_absent h
      (cmip6Fileparts_no_special_key (Or.inr (Or.inl rfl))) (by decide) (by decide)
  · exact error_map_key_absent h
      (cmip6Fileparts_no_special_key (Or.inr (Or.inr rfl))) (by decide) (by decide)

/-- Witness for C5 at a conforming filename with no directory part. -/
theorem parseCmip6_best_effort_on_failure_witness :
    parseCmip6 bareFilename = cmip6Fileparts bareFilename ∧
    alookup (cmip6Fileparts bareFilename) "path" = none := by
  have h := parseCmip6_best_effort_on_failure bareFilename
    (cmip6Fileparts bareFilename) (by decide)
  exact ⟨h.1, h.2.2.2.1⟩

/-- C6 (confirmed).  On the specification's CMIP6 example path the parser
produces exactly the listed attribute values, with `grid_label` taken from
the directory segment after the `variable_id` directory (here both the
directory and the filename carry `gn`), `version` from the directory
level `v20180701`, and `dcpp_init_year` the missing marker since
`member_id` does not begin with `s`. -/
theorem parseCmip6_example :
    alookup (parseCmip6 examplePath6) "activity_id"
        = some (Value.vstr "ScenarioMIP") ∧
    alookup (parseCmip6 examplePath6) "institution_id"
        = some (Value.vstr "NOAA") ∧
    alookup (parseCmip6 examplePath6) "source_id"
        = some (Value.vstr "GFDL-CM4") ∧
    alookup (parseCmip6 examplePath6) "experiment_id"
        = some (Value.vstr "ssp585") ∧
    alookup (parseCmip6 examplePath6) "member_id"
        = some (Value.vstr "r1i1p1f1") ∧
    alookup (parseCmip6 examplePath6) "table_id"
        = some (Value.vstr "Amon") ∧
    alookup (parseCmip6 examplePath6) "variable_id"
        = some (Value.vstr "tas") ∧
    alookup (parseCmip6 examplePath6) "grid_label"
        = some (Value.vstr "gn") ∧
    alookup (parseCmip6 examplePath6) "version"
        = some (Value.vstr "v20180701") ∧
    alookup (parseCmip6 examplePath6) "time_range"
        = some (Value.vstr "201501-210012") ∧
    alookup (parseCmip6 examplePath6) "dcpp_init_year" = some Value.nan ∧
    alookup (parseCmip6 examplePath6) "path"
        = some (Value.vstr examplePath6) := by decide

/-- C7 (corrected).  The claim as stated fails when the `s`-prefixed
member's prefix does not convert to a float: `float` raises, the bare
`except` catches it, and `member_id` stays un-rewritten with
`dcpp_init_year` absent (see the counterexample).  What holds, for any
filepath whose directory-derived steps succeed: if the filename-derived
`member_id` begins with `s` and its first `-`-segment with the `s`
stripped converts to a float, `dcpp_init_year` becomes that value and
`member_id` is rewritten to the last `-`-segment; if `member_id` does not
begin with `s`, `dcpp_init_year` is the NaN marker and `member_id` is
unchanged. -/
theorem cmip6_member_id_postprocess (fp mid : String)
    (hok : (cmip6DirResult fp).isOk = true)
    (hmid : alookup (cmip6AfterDir fp) "member_id" = some (Value.vstr mid)) :
    (pyStartsWith mid "s" = true →
      ∀ x, pyFloat (pyDrop1 ((pySplit mid "-").headD "")) = some x →
        alookup (parseCmip6 fp) "dcpp_init_year" = some (Value.vnum x) ∧
        alookup (parseCmip6 fp) "member_id"
          = some (Value.vstr ((pySplit mid "-").getLastD ""))) ∧
    (pyStartsWith mid "s" = false →
      alookup (parseCmip6 fp) "dcpp_init_year" = some Value.nan ∧
      alookup (parseCmip6 fp) "member_id" = some (Value.vstr mid)) := by
  cases hr : cmip6DirResult fp with
  | error m =>
    rw [hr] at hok
    simp [Except.isOk, Except.toBool] at hok
  | ok m =>
    have hafter : cmip6AfterDir fp = m := cmip6AfterDir_of_ok hr
    rw [hafter] at hmid
    rw [parseCmip6_of_ok hr]
    have hmidStr : alookupStr m "member_id" = some mid := by
      unfold alookupStr
      rw [hmid]
    constructor
    · intro hs x hx
      unfold cmip6MemberStep
      rw [hmidStr]
      simp only [hs, if_true, hx]
      constructor
      · rw [alookup_ainsert_ne _ (by decide), alookup_ainsert_self]
      · rw [alookup_ainsert_self]
    · intro hs
      unfold cmip6MemberStep
      rw [hmidStr]
      simp only [hs, Bool.false_eq_true, if_false]
      constructor
      · rw [alookup_ainsert_self]
      · rw [alookup_ainsert_ne _ (by decide)]
        exact hmid

/-- C7 counterexample: `member_id = sx-r1i1p1f1` begins with `s`, yet the
parser neither sets `dcpp_init_year` nor rewrites `member_id`, because
`float('x')` raises. -/
theorem cmip6_member_float_counterexample :
    pyStartsWith "sx-r1i1p1f1" "s" = true ∧
    alookup (parseCmip6 badDcppPath) "member_id"
        = some (Value.vstr "sx-r1i1p1f1") ∧
    alookup (parseCmip6 badDcppPath) "dcpp_init_year" = none := by decide

/-- Witness for C7: `s1960-r2i1p1f1` decomposes into
`dcpp_init_year = 1960.0` and `member_id = r2i1p1f1`. -/
theorem cmip6_member_id_postprocess_witness :
    alookup (parseCmip6 dcppPath) "dcpp_init_year"
        = some (Value.vnum 1960) ∧
    alookup (parseCmip6 dcppPath) "member_id"
        = some (Value.vstr "r2i1p1f1") := by
  have h := cmip6_member_id_postprocess dcppPath "s1960-r2i1p1f1"
    (by decide) (by decide)
  have h2 := h.1 (by decide) 1960 (by decide)
  exact ⟨h2.1, by rw [h2.2]; decide⟩

/-- C2 (corrected).  The claim's "exactly `min(1, original size)` rows"
fails for a multi-row group whose rows all carry the *same* version:
`nunique` is then 1 and the group is left untouched, so both rows survive
(see the counterexample).  What holds: a group with more than one
distinct version value keeps exactly one row, whose version is maximal in
the group's descending order; a group with at most one distinct version
value keeps all of its rows. -/
theorem version_selector_group_sizes (df : DataFrame) (k : List Value) :
    (1 < nuniqueVersion df (groupOf df k) →
      (survivorsOfGroup df k).length = 1 ∧
      ∀ s ∈ survivorsOfGroup df k, ∀ ir ∈ groupOf df k,
        vbefore (versionOf df s) (versionOf df ir) = true) ∧
    (nuniqueVersion df (groupOf df k) ≤ 1 →
      survivorsOfGroup df k = groupOf df k) := by
  constructor
  · intro h
    obtain ⟨heq, hmax⟩ := survivorsOfGroup_of_nunique_gt h
    have hne : groupOf df k ≠ [] := by
      intro h0
      rw [h0] at h
      simp [nuniqueVersion] at h
    have hlen : (sortGroup df (groupOf df k)).length = (groupOf df k).length :=
      (sortGroup_perm df (groupOf df k)).length_eq
    constructor
    · rw [heq, List.length_take, hlen]
      have := List.length_pos.mpr hne
      omega
    · intro s hs ir hir
      rw [heq] at hs
      exact hmax s hs ir hir
  · exact fun h => survivorsOfGroup_of_nunique_le h

/-- C2 counterexample: a logical-dataset group of two rows with one
distinct version keeps both rows, not `min(1, 2) = 1`. -/
theorem version_selector_min_counterexample :
    ¬ ((survivorsOfGroup dfSameVersion [Value.vstr "e"]).length
        = min 1 (groupOf dfSameVersion [Value.vstr "e"]).length) := by decide

/-- Witness for C2 on a two-version group. -/
theorem version_selector_group_sizes_witness :
    (survivorsOfGroup dfTwoVersions [Value.vstr "e"]).length = 1 := by
  have h := (version_selector_group_sizes dfTwoVersions [Value.vstr "e"]).1
    (by decide)
  exact h.1

/-- C4 (confirmed).  In every group of the partition with more than one
distinct version value, only the top-ranked row of the descending version
sort survives (its version maximal in the group); every group with at
most one distinct version value — in particular a single one — is left
completely untouched. -/
theorem pick_latest_version_groups (df : DataFrame) (k : List Value) :
    (1 < nuniqueVersion df (groupOf df k) →
      survivorsOfGroup df k = (sortGroup df (groupOf df k)).take 1 ∧
      ∀ hd ∈ (sortGroup df (groupOf df k)).take 1, ∀ ir ∈ groupOf df k,
        vbefore (versionOf df hd) (versionOf df ir) = true) ∧
    (nuniqueVersion df (groupOf df k) ≤ 1 →
      survivorsOfGroup df k = groupOf df k) :=
  ⟨fun h => survivorsOfGroup_of_nunique_gt h,
   fun h => survivorsOfGroup_of_nunique_le h⟩

/-- Witness for C4 on a two-version group: the survivor list is the head
of the descending sort (the `v20180701` row), and the same-version group
of `dfSameVersion` is untouched. -/
theorem pick_latest_version_groups_witness :
    survivorsOfGroup dfTwoVersions [Value.vstr "e"]
        = (sortGroup dfTwoVersions (groupOf dfTwoVersions [Value.vstr "e"])).take 1 ∧
    survivorsOfGroup dfSameVersion [Value.vstr "e"]
        = groupOf dfSameVersion [Value.vstr "e"] := by
  have h1 := (pick_latest_version_groups dfTwoVersions [Value.vstr "e"]).1
    (by decide)
  have h2 := (pick_latest_version_groups dfSameVersion [Value.vstr "e"]).2
    (by decide)
  exact ⟨h1.1, h2⟩

/-- C8 (confirmed).  A row appears in the filtered catalog iff it appears
in the input and its `activity_id` is a member of the permitted set — so
every surviving row's value is permitted, no out-of-vocabulary row
survives, and dropping is total (no error path). -/
theorem vocabulary_filter_membership (df : DataFrame) (allowed : List String)
    (row : List Value) :
    row ∈ (filterActivity df allowed).rows ↔
      (row ∈ df.rows ∧
        ∃ s, colValue df.columns row "activity_id" = Value.vstr s ∧
          s ∈ allowed) := by
  simp only [filterActivity, List.mem_filter]
  constructor
  · rintro ⟨hmem, hb⟩
    refine ⟨hmem, ?_⟩
    unfold activityIsin at hb
    cases hv : colValue df.columns row "activity_id" <;> rw [hv] at hb
    · exact ⟨_, rfl, by simpa using hb⟩
    · simp at hb
    · simp at hb
  · rintro ⟨hmem, s, hv, hs⟩
    refine ⟨hmem, ?_⟩
    unfold activityIsin
    rw [hv]
    simpa using hs

/-- Witness for C8: the `ScenarioMIP` row survives the filter against a
permitted set containing it, and the `junk` row does not appear. -/
theorem vocabulary_filter_membership_witness :
    [Value.vstr "ScenarioMIP", Value.vstr "p"]
        ∈ (filterActivity dfVocab ["CMIP", "ScenarioMIP"]).rows ∧
    [Value.vstr "junk", Value.vstr "q"]
        ∉ (filterActivity dfVocab ["CMIP", "ScenarioMIP"]).rows := by
  constructor
  · exact (vocabulary_filter_membership dfVocab ["CMIP", "ScenarioMIP"] _).mpr
      ⟨by decide, "ScenarioMIP", by decide, by decide⟩
  · intro hmem
    have h := (vocabulary_filter_membership dfVocab ["CMIP", "ScenarioMIP"] _).mp
      hmem
    obtain ⟨-, s, hv, hs⟩ := h
    have hjunk : colValue dfVocab.columns [Value.vstr "junk", Value.vstr "q"]
        "activity_id" = Value.vstr "junk" := by decide
    rw [hjunk] at hv
    injection hv with hv'
    rw [← hv'] at hs
    simp at hs

/-- C9 (confirmed).  With an unsupported convention identifier
(`cmip_version` neither 5 nor 6) or a missing output CSV path, `cli`
raises a `ValueError` whose content does not depend on the catalog that
traversal and assembly would have produced — the failure happens before
`build_cmip` is invoked and no catalog is built. -/
theorem cli_invalid_configuration (v : Option Int) (f : Option String)
    (h : ¬(v = some 5 ∨ v = some 6) ∨ f = none) :
    ∃ msg, ∀ catalog, cli v f catalog = Except.error msg := by
  rcases h with h | h
  · refine ⟨"cmip_version is not valid. Valid options include: 5 and 6.",
      fun catalog => ?_⟩
    simp [cli, h]
  · by_cases hv : v = some 5 ∨ v = some 6
    · subst h
      refine ⟨"Please provide csv-filepath. e.g.: ./cmip5.csv.gz",
        fun catalog => ?_⟩
      simp [cli, hv]
    · refine ⟨"cmip_version is not valid. Valid options include: 5 and 6.",
        fun catalog => ?_⟩
      simp [cli, hv]

/-- Witness for C9: `cmip_version = 7` is rejected whatever catalog would
have been built. -/
theorem cli_invalid_configuration_witness :
    ∃ msg, ∀ catalog,
      cli (some 7) (some "./cmip5.csv.gz") catalog = Except.error msg :=
  cli_invalid_configuration (some 7) (some "./cmip5.csv.gz")
    (Or.inl (by decide))

/-- C10 (confirmed).  A row with the missing marker in any grouping column
falls into no group of the `groupby` partition, so no removal task can
mark it: it always survives `_pick_latest_version`, even when another row
differs from it only in `path` and `version`. -/
theorem nan_key_rows_survive (df : DataFrame) (i : Nat) (row : List Value)
    (h1 : df.rows.get? i = some row)
    (h2 : keyHasNan (rowKey df row) = true) :
    row ∈ (_pick_latest_version df).rows := by
  have henum : (i, row) ∈ indexedRows df := by
    rw [mem_indexedRows_iff]
    exact h1
  have hnot : i ∉ idxToRemove df := by
    intro hrem
    obtain ⟨k, -, hi⟩ := mem_idxToRemove_iff.mp hrem
    obtain ⟨ir', -, hfst, hg'⟩ := mem_pick_latest_v hi
    have hval' := mem_validRows_iff.mp (mem_groupOf_iff.mp hg').1
    obtain ⟨i', r'⟩ := ir'
    simp only at hfst
    subst hfst
    have hr : r' = row := indexedRows_functional hval'.1 henum
    rw [hr] at hval'
    rw [hval'.2] at h2
    cases h2
  unfold _pick_latest_version
  simp only [List.mem_map]
  refine ⟨(i, row), List.mem_filter.mpr ⟨henum, ?_⟩, rfl⟩
  simp [hnot]

/-- Witness for C10: both rows of `dfNanKey` differ only in
`path`/`version`, carry a missing `dcpp_init_year`, and the first one
survives deduplication. -/
theorem nan_key_rows_survive_witness :
    [Value.vstr "e", Value.nan, Value.vstr "v1", Value.vstr "p1"]
      ∈ (_pick_latest_version dfNanKey).rows :=
  nan_key_rows_survive dfNanKey 0
    [Value.vstr "e", Value.nan, Value.vstr "v1", Value.vstr "p1"]
    (by decide) (by decide)

end Cmip
